import Mathlib

/-!
A shallow embedding of the result-normalization and geometry pipeline of the
`ocrmypdf-paddleocr` plugin (`src/ocrmypdf_paddleocr/engine.py` and
`src/ocrmypdf_paddleocr/lang_map.py`), together with theorems settling the
specification claims about it.

Modelling conventions:
* Python floats are modelled by `ℚ` (all operations the code performs on them
  are comparisons, min/max, subtraction, and scaling — exact on `ℚ`).
* The external PaddleOCR predictor is an oracle: a function from the attempt
  index (0 = first call, 1 = the single retry) and the `return_word_box` flag
  to either a result or a raised fault (`KeyError` / `RuntimeError`).
* The process environment variable `OMP_THREAD_LIMIT` is modelled as an
  `Option String`; the module-level engine cache is a `CacheState` record
  threaded explicitly.
* Python list indexing that can raise `IndexError` is modelled with
  `Except PyErr`; `math.degrees (math.atan2 dy dx)` is an oracle parameter
  `atanDeg` since only the aggregation structure is at issue.
-/

namespace PaddleOcr

/-- Fault kinds that `engine.predict` can raise and that `generate_ocr`
distinguishes: `KeyError` (data-shape fault of the word-box path) and
`RuntimeError` (stale native predictor). -/
inductive Fault where
  | keyError
  | runtimeError
  deriving DecidableEq, Repr

/-- Python-level error arising inside the assembly loop itself
(out-of-bounds list subscript). -/
inductive PyErr where
  | indexError
  deriving DecidableEq, Repr

/-- Model of Python `str.strip()`: drop whitespace from both ends. -/
def strip (s : String) : String :=
  ⟨((s.data.dropWhile Char.isWhitespace).reverse.dropWhile Char.isWhitespace).reverse⟩

/-- The Tesseract-to-PaddleOCR language-code table (`lang_map._LANG_MAP`). -/
def _LANG_MAP : List (String × String) :=
  [("eng", "en"), ("kor", "korean"), ("chi_sim", "ch"), ("chi_tra", "chinese_cht"),
   ("jpn", "japan"), ("deu", "german"), ("fra", "french"), ("spa", "es"),
   ("por", "pt"), ("ita", "it"), ("rus", "ru"), ("ara", "ar"), ("hin", "hi"),
   ("vie", "vi"), ("tha", "th"), ("tur", "tr"), ("ukr", "uk"), ("pol", "pl"),
   ("nld", "nl"), ("nor", "no"), ("swe", "sv"), ("dan", "da"), ("fin", "fi"),
   ("hun", "hu"), ("ces", "cs"), ("ron", "ro"), ("bul", "bg"), ("hrv", "hr"),
   ("slk", "sk"), ("slv", "sl"), ("ell", "el"), ("heb", "he"), ("ind", "id"),
   ("msa", "ms"), ("tam", "ta"), ("tel", "te"), ("kan", "ka"), ("mar", "mr"),
   ("nep", "ne"), ("ben", "bn"), ("urd", "ur"), ("fas", "fa"), ("mya", "my"),
   ("khm", "km"), ("lao", "lo"), ("lat", "la"), ("est", "et"), ("lav", "lv"),
   ("lit", "lt")]

/-- `lang_map.tesseract_to_paddle`: table lookup with identity fallback. -/
def tesseract_to_paddle (lang : String) : String :=
  (_LANG_MAP.lookup lang).getD lang

/-- The language the engine is (re)built for, from `options.languages`
(`engine.py` line 53): first entry translated, default `"en"`. -/
def langOf (languages : List String) : String :=
  match languages with
  | [] => "en"
  | l :: _ => tesseract_to_paddle l

/-- `_create_paddle_engine`, projected onto the state the claim C1 is about:
the `OMP_THREAD_LIMIT` environment binding.  `env` is the binding before the
call, `ctorRaises` says whether the underlying `PaddleOCR(...)` constructor
raises.  Returns the binding after the call together with `true` when an
engine was returned (`false` when the constructor's exception propagated).
The source (`engine.py` lines 29-46) pops the variable, runs the constructor,
and restores the variable only on the straight-line path after the
constructor: there is no `try`/`finally`. -/
def _create_paddle_engine (env : Option String) (ctorRaises : Bool) :
    Option String × Bool :=
  let saved := env
  let env1 : Option String := none
  if ctorRaises then
    (env1, false)
  else
    let env2 : Option String :=
      match saved with
      | some v => some v
      | none => env1
    (env2, true)

/-- The module-level engine cache (`_paddle_engine`, `_paddle_lang`), plus a
ghost counter of how many engine constructions have happened.  A freshly
constructed engine instance is identified by the value of the counter at
construction time, so distinct constructions yield distinct identities. -/
structure CacheState where
  engine : Option (Nat × String)
  builds : Nat
  deriving DecidableEq, Repr

/-- `_get_paddle_engine` (`engine.py` lines 49-61): return the cached engine
when its language matches, otherwise construct a replacement. -/
def _get_paddle_engine (s : CacheState) (languages : List String) :
    CacheState × Nat :=
  let lang := langOf languages
  match s.engine with
  | some (e, l) =>
    if l = lang then (s, e)
    else ({ engine := some (s.builds, lang), builds := s.builds + 1 }, s.builds)
  | none => ({ engine := some (s.builds, lang), builds := s.builds + 1 }, s.builds)

/-- `_reset_paddle_engine` (`engine.py` lines 64-68): drop the cached handle. -/
def _reset_paddle_engine (s : CacheState) : CacheState :=
  { engine := none, builds := s.builds }

/-- `BoundingBox` of `ocrmypdf.models.ocr_element`, as used by the engine. -/
structure BoundingBox where
  left : ℚ
  top : ℚ
  right : ℚ
  bottom : ℚ
  deriving DecidableEq, Repr

/-- A four-point quadrilateral, as produced per token in
`text_word_region`. -/
structure Quad where
  p1 : ℚ × ℚ
  p2 : ℚ × ℚ
  p3 : ℚ × ℚ
  p4 : ℚ × ℚ
  deriving DecidableEq, Repr

/-- `_quad_to_bbox` (`engine.py` lines 71-79): enclosing axis-aligned box of
the four points, or `none` when it is degenerate. -/
def _quad_to_bbox (q : Quad) : Option BoundingBox :=
  let left := min (min (min q.p1.1 q.p2.1) q.p3.1) q.p4.1
  let right := max (max (max q.p1.1 q.p2.1) q.p3.1) q.p4.1
  let top := min (min (min q.p1.2 q.p2.2) q.p3.2) q.p4.2
  let bottom := max (max (max q.p1.2 q.p2.2) q.p3.2) q.p4.2
  if right ≤ left ∨ bottom ≤ top then none
  else some { left := left, top := top, right := right, bottom := bottom }

/-- One entry of `rec_boxes`: an axis-aligned `[x1, y1, x2, y2]` array. -/
structure RecBox where
  x1 : ℚ
  y1 : ℚ
  x2 : ℚ
  y2 : ℚ
  deriving DecidableEq, Repr

/-- A WORD node of the output tree: box, token text, confidence. -/
structure Word where
  bbox : BoundingBox
  text : String
  confidence : ℚ
  deriving DecidableEq, Repr

/-- A LINE node of the output tree. -/
structure Line where
  bbox : BoundingBox
  children : List Word
  deriving DecidableEq, Repr

/-- The PAGE node of the output tree. -/
structure Page where
  bbox : BoundingBox
  dpi : ℚ
  page_number : Nat
  children : List Line
  deriving DecidableEq, Repr

/-- The per-image result dictionary returned by `engine.predict`, restricted
to the keys the plugin reads (each `.get(key, [])` defaults to empty). -/
structure OcrResult where
  rec_texts : List String
  rec_scores : List ℚ
  rec_boxes : List RecBox
  text_word : List (List String)
  text_word_region : List (List Quad)
  dt_polys : List (List (ℚ × ℚ))
  deriving DecidableEq, Repr

/-- Truthiness of the per-image result dictionary (`not result[0]`): the
dictionary is falsy exactly when it carries no data, which for the keys the
plugin reads means all of them default to empty. -/
def OcrResult.isEmptyRes (r : OcrResult) : Bool :=
  r.rec_texts.isEmpty && r.rec_scores.isEmpty && r.rec_boxes.isEmpty &&
  r.text_word.isEmpty && r.text_word_region.isEmpty && r.dt_polys.isEmpty

/-- `has_word_boxes` (`engine.py` line 204): both word-detail arrays
non-empty. -/
def hwbOf (d : OcrResult) : Bool :=
  !d.text_word.isEmpty && !d.text_word_region.isEmpty

/-- The box a line-level `[x1, y1, x2, y2]` entry converts to
(`engine.py` line 215). -/
def recBBox (box : RecBox) : BoundingBox :=
  { left := box.x1, top := box.y1, right := box.x2, bottom := box.y2 }

/-- The inner word loop of `generate_ocr` (`engine.py` lines 220-233): pair
tokens with quads positionally, drop blank trimmed tokens and degenerate
quads, give every word the line's score. -/
def assembleWords (tokens : List String) (quads : List Quad) (score : ℚ) :
    List Word :=
  (tokens.zip quads).filterMap fun tq =>
    let token := strip tq.1
    if token = "" then none
    else
      match _quad_to_bbox tq.2 with
      | none => none
      | some b => some { bbox := b, text := token, confidence := score }

/-- One iteration of the line loop of `generate_ocr` (`engine.py` lines
207-246) at index `i`: skip blank text, skip a degenerate line box, build the
word children (word-detail branch indexes `text_word_region[i]`, which raises
`IndexError` when `i` is out of bounds there), and attach the line only when
it has at least one word child.  `.ok none` is Python `continue`;
`.ok (some (line, text))` appends `line` to the page and `text` to
`text_parts`. -/
def lineStep (has_word_boxes : Bool) (text_word : List (List String))
    (text_word_region : List (List Quad)) (i : Nat) (text : String)
    (score : ℚ) (box : RecBox) : Except PyErr (Option (Line × String)) :=
  if strip text = "" then .ok none
  else if box.x2 ≤ box.x1 ∨ box.y2 ≤ box.y1 then .ok none
  else if has_word_boxes = true ∧ i < text_word.length ∧ text_word.getD i [] ≠ [] then
    if i < text_word_region.length then
      if assembleWords (text_word.getD i []) (text_word_region.getD i []) score = []
      then .ok none
      else .ok (some ({ bbox := recBBox box,
                        children := assembleWords (text_word.getD i [])
                          (text_word_region.getD i []) score }, text))
    else .error .indexError
  else
    .ok (some ({ bbox := recBBox box,
                 children := [{ bbox := recBBox box, text := text,
                                confidence := score }] }, text))

/-- Python `zip` of three lists: truncate to the shortest. -/
def zip3 {α β γ : Type} : List α → List β → List γ → List (α × β × γ)
  | a :: as, b :: bs, c :: cs => (a, b, c) :: zip3 as bs cs
  | _, _, _ => []

/-- The line loop of `generate_ocr` over
`enumerate(zip(rec_texts, rec_scores, rec_boxes))` starting at index `i`,
accumulating attached lines and their texts in order. -/
def assembleLoop (has_word_boxes : Bool) (text_word : List (List String))
    (text_word_region : List (List Quad)) :
    Nat → List (String × ℚ × RecBox) → Except PyErr (List Line × List String)
  | _, [] => .ok ([], [])
  | i, (t, sc, b) :: rest =>
    match lineStep has_word_boxes text_word text_word_region i t sc b with
    | .error e => .error e
    | .ok r =>
      match assembleLoop has_word_boxes text_word text_word_region (i + 1) rest with
      | .error e => .error e
      | .ok (ls, ts) =>
        match r with
        | none => .ok (ls, ts)
        | some (l, tx) => .ok (l :: ls, tx :: ts)

/-- The pure assembly phase of `generate_ocr` (`engine.py` lines 171-249),
after the predict call: build the PAGE node, return it bare when the result
or its first element is empty or there are no recognized texts, otherwise run
the line loop and join the accumulated texts with newlines. -/
def generate_ocr_assemble (img_width img_height dpi : ℚ) (page_number : Nat)
    (result : List OcrResult) : Except PyErr (Page × String) :=
  let page : Page :=
    { bbox := { left := 0, top := 0, right := img_width, bottom := img_height },
      dpi := dpi, page_number := page_number, children := [] }
  match result with
  | [] => .ok (page, "")
  | ocr_data :: _ =>
    if ocr_data.isEmptyRes then .ok (page, "")
    else if ocr_data.rec_texts.isEmpty then .ok (page, "")
    else
      match assembleLoop (hwbOf ocr_data) ocr_data.text_word
          ocr_data.text_word_region 0
          (zip3 ocr_data.rec_texts ocr_data.rec_scores ocr_data.rec_boxes) with
      | .error e => .error e
      | .ok (ls, ts) =>
        .ok ({ page with children := ls }, String.intercalate "\n" ts)

/-- `generate_ocr` (`engine.py` lines 157-249) with the predictor as an
oracle: `predict n wb` is the outcome of the `n`-th predict attempt (0 =
first, 1 = the single retry) with `return_word_box = wb`.  Returns the
outcome (a raised `Fault`, or the assembled page), the final cache state, and
the trace of predict calls as (engine identity, word-box flag) pairs, in
order.  The `try`/`except` ladder: `KeyError` retries once on the same engine
without word boxes; `RuntimeError` resets the cache, re-acquires, and retries
once with word boxes; a fault raised by either retry propagates. -/
def generate_ocr (predict : Nat → Bool → Except Fault (List OcrResult))
    (s : CacheState) (languages : List String) (img_width img_height dpi : ℚ)
    (page_number : Nat) :
    Except Fault (Except PyErr (Page × String)) × CacheState × List (Nat × Bool) :=
  let a1 := _get_paddle_engine s languages
  match predict 0 true with
  | .ok result =>
    (.ok (generate_ocr_assemble img_width img_height dpi page_number result),
     a1.1, [(a1.2, true)])
  | .error .keyError =>
    match predict 1 false with
    | .ok result =>
      (.ok (generate_ocr_assemble img_width img_height dpi page_number result),
       a1.1, [(a1.2, true), (a1.2, false)])
    | .error f => (.error f, a1.1, [(a1.2, true), (a1.2, false)])
  | .error .runtimeError =>
    let s2 := _reset_paddle_engine a1.1
    let a2 := _get_paddle_engine s2 languages
    match predict 1 true with
    | .ok result =>
      (.ok (generate_ocr_assemble img_width img_height dpi page_number result),
       a2.1, [(a1.2, true), (a2.2, true)])
    | .error f => (.error f, a2.1, [(a1.2, true), (a2.2, true)])

/-- One record of the orientation sub-model's result list.  `label_names`
holds the class labels (the code applies `int(...)` to the first one; labels
are modelled as the integers they parse to), `scores` the class scores. -/
structure OrientRec where
  label_names : List Int
  scores : List ℚ
  deriving DecidableEq, Repr

/-- `OrientationConfidence` of `ocrmypdf.pluginspec`. -/
structure OrientationConfidence where
  angle : Int
  confidence : ℚ
  deriving DecidableEq, Repr

/-- `get_orientation` (`engine.py` lines 102-118): angle 0 / confidence 0 on
an empty result, otherwise the first record's top label with its top score
rescaled by 15; `none` models the `IndexError` the source would raise when
the first record's label or score list is empty. -/
def get_orientation (result : List OrientRec) : Option OrientationConfidence :=
  match result with
  | [] => some { angle := 0, confidence := 0 }
  | r :: _ =>
    match r.label_names, r.scores with
    | a :: _, sc :: _ => some { angle := a, confidence := sc * 15 }
    | _, _ => none

/-- The angle-collection loop of `get_deskew` (`engine.py` lines 132-141):
for each polygon with at least two vertices, the vertex-0-to-vertex-1 edge;
edges with `|dx| < 1` are skipped; `atanDeg dy dx` stands for
`math.degrees(math.atan2(dy, dx))`. -/
def collect_angles {α : Type} (atanDeg : ℚ → ℚ → α)
    (dt_polys : List (List (ℚ × ℚ))) : List α :=
  dt_polys.filterMap fun poly =>
    match poly with
    | p0 :: p1 :: _ =>
      let dx := p1.1 - p0.1
      let dy := p1.2 - p0.2
      if |dx| < 1 then none else some (atanDeg dy dx)
    | _ => none

/-- `get_deskew` (`engine.py` lines 120-151) after the predict call: 0 on an
empty result, empty first element, empty polygon list, or no qualifying
edges; otherwise sort the collected angles and take the middle one, averaging
the two middle ones when the count is even.  Python's in-place `list.sort` is
modelled by `List.insertionSort`. -/
def get_deskew {α : Type} [LinearOrderedField α] (atanDeg : ℚ → ℚ → α)
    (result : List OcrResult) : α :=
  match result with
  | [] => 0
  | r :: _ =>
    if r.isEmptyRes then 0
    else
      let dt_polys := r.dt_polys
      if dt_polys.isEmpty then 0
      else
        let angles := collect_angles atanDeg dt_polys
        if angles.isEmpty then 0
        else
          let sorted := List.insertionSort (· ≤ ·) angles
          let mid := sorted.length / 2
          if sorted.length % 2 = 0 then
            (sorted.getD (mid - 1) 0 + sorted.getD mid 0) / 2
          else sorted.getD mid 0

/-- Spec-side median of a list: sort (here with `List.mergeSort`, a different
sorting algorithm than the one in the `get_deskew` embedding), then take the
middle element, averaging the two middle elements for an even length. -/
def medianSpec {α : Type} [LinearOrderedField α] (l : List α) : α :=
  let s := l.mergeSort fun a b => decide (a ≤ b)
  let mid := s.length / 2
  if s.length % 2 = 0 then (s.getD (mid - 1) 0 + s.getD mid 0) / 2
  else s.getD mid 0

/-- Spec-side (claim C8/C5 wording): the word children a line at index `i`
ends up with — the per-token words when word-level detail is present and
non-empty for the line, else the single whole-line word. -/
def specWords (has_word_boxes : Bool) (text_word : List (List String))
    (text_word_region : List (List Quad)) (i : Nat) (text : String)
    (score : ℚ) (box : RecBox) : List Word :=
  if has_word_boxes = true ∧ i < text_word.length ∧ text_word.getD i [] ≠ [] then
    assembleWords (text_word.getD i []) (text_word_region.getD i []) score
  else
    [{ bbox := recBBox box, text := text, confidence := score }]

/-- Spec-side (claim C5 wording): the line-and-text contribution of entry
`(text, score, box)` at index `i` — present exactly when the text is
non-blank, the line box is non-degenerate, and the line ends up with at
least one word child. -/
def specLineOf (has_word_boxes : Bool) (text_word : List (List String))
    (text_word_region : List (List Quad)) (i : Nat) (text : String)
    (score : ℚ) (box : RecBox) : Option (Line × String) :=
  if strip text = "" then none
  else if box.x2 ≤ box.x1 ∨ box.y2 ≤ box.y1 then none
  else if specWords has_word_boxes text_word text_word_region i text score box = []
  then none
  else some ({ bbox := recBBox box,
               children := specWords has_word_boxes text_word text_word_region
                 i text score box }, text)

/-- Spec-side (claim C5 wording): the attached lines with their texts, in
order, over the entries enumerated from index `i`. -/
def specAttachedFrom (has_word_boxes : Bool) (text_word : List (List String))
    (text_word_region : List (List Quad)) (i : Nat)
    (entries : List (String × ℚ × RecBox)) : List (Line × String) :=
  (List.enumFrom i entries).filterMap fun p =>
    specLineOf has_word_boxes text_word text_word_region p.1 p.2.1 p.2.2.1 p.2.2.2

/-- Spec-side (claim C5 wording): the attached lines with their texts over
all enumerated entries. -/
def specAttachedLines (has_word_boxes : Bool) (text_word : List (List String))
    (text_word_region : List (List Quad))
    (entries : List (String × ℚ × RecBox)) : List (Line × String) :=
  specAttachedFrom has_word_boxes text_word text_word_region 0 entries

/-- Spec-side (claim C8 wording): the trimmed non-blank tokens of the line
whose paired quad is non-degenerate — the tokens that become words. -/
def trimmedValidTokens (tokens : List String) (quads : List Quad) : List String :=
  (tokens.zip quads).filterMap fun tq =>
    let token := strip tq.1
    if token ≠ "" ∧ (_quad_to_bbox tq.2).isSome then some token else none

/-- C1: the claim says the `OMP_THREAD_LIMIT` override is restored on every
exit path of `_create_paddle_engine`, including when the underlying engine
constructor raises.  The code restores it only on the normal path (there is
no `try`/`finally`): with the override previously set to `"1"` and a raising
constructor, the environment ends with the override absent; on the normal
path it is restored. -/
theorem claim_C1 :
    (_create_paddle_engine (some "1") true).1 = none ∧
    (_create_paddle_engine (some "1") false).1 = some "1" :=
  ⟨rfl, rfl⟩

/-- After an acquire, the cache holds exactly the returned engine under the
requested language. -/
theorem acquire_state (s : CacheState) (langs : List String) :
    (_get_paddle_engine s langs).1.engine =
      some ((_get_paddle_engine s langs).2, langOf langs) := by
  unfold _get_paddle_engine
  rcases hs : s.engine with _ | ⟨e, l⟩
  · simp
  · by_cases hl : l = langOf langs <;> simp [hs, hl]

/-- Acquire on a cache already holding the requested language is the
identity: same state back, the cached engine returned. -/
theorem acquire_hit (s : CacheState) (langs : List String) (e : Nat)
    (h : s.engine = some (e, langOf langs)) :
    _get_paddle_engine s langs = (s, e) := by
  unfold _get_paddle_engine
  rw [h]
  simp

/-- Acquire on a cache not holding the requested language constructs a new
engine and replaces the handle. -/
theorem acquire_build (s : CacheState) (langs : List String)
    (h : ∀ e, s.engine ≠ some (e, langOf langs)) :
    _get_paddle_engine s langs =
      ({ engine := some (s.builds, langOf langs), builds := s.builds + 1 },
       s.builds) := by
  unfold _get_paddle_engine
  rcases hs : s.engine with _ | ⟨e, l⟩
  · simp
  · have hl : l ≠ langOf langs := by
      intro hl
      exact h e (by rw [hs, hl])
    simp [hl]

/-- An acquire constructs at most one engine. -/
theorem acquire_builds_le (s : CacheState) (langs : List String) :
    (_get_paddle_engine s langs).1.builds ≤ s.builds + 1 := by
  unfold _get_paddle_engine
  rcases hs : s.engine with _ | ⟨e, l⟩
  · simp
  · by_cases hl : l = langOf langs <;> simp [hs, hl]

/-- C4: `_get_paddle_engine` is idempotent per language — a second acquire
with the same language list returns the identical cached instance and leaves
the cache state untouched, the pair of calls constructing at most once — and
an acquire with a language list mapping to a different language performs
exactly one rebuild, replacing the cached handle with a handle for the new
language. -/
theorem claim_C4 (s : CacheState) (languages languages2 : List String) :
    (let a1 := _get_paddle_engine s languages
     let a2 := _get_paddle_engine a1.1 languages
     a2.1 = a1.1 ∧ a2.2 = a1.2 ∧ a1.1.builds ≤ s.builds + 1) ∧
    (langOf languages2 ≠ langOf languages →
     let a1 := _get_paddle_engine s languages
     let a3 := _get_paddle_engine a1.1 languages2
     a3.1.builds = a1.1.builds + 1 ∧
     a3.1.engine = some (a3.2, langOf languages2)) := by
  constructor
  · have h2 := acquire_hit (_get_paddle_engine s languages).1 languages
      (_get_paddle_engine s languages).2 (acquire_state s languages)
    exact ⟨by rw [h2], by rw [h2], acquire_builds_le s languages⟩
  · intro hne
    have h3 := acquire_build (_get_paddle_engine s languages).1 languages2
      (by
        intro e he
        rw [acquire_state s languages] at he
        exact hne (by injection he with h; injection h with h1 h2; rw [h2]))
    dsimp only
    rw [h3]
    exact ⟨rfl, rfl⟩

/-- Witness for C4 at a concrete cache state and language lists. -/
theorem claim_C4_witness :
    langOf ["kor"] ≠ langOf ["eng"] ∧
    (let a1 := _get_paddle_engine ⟨none, 0⟩ ["eng"]
     let a3 := _get_paddle_engine a1.1 ["kor"]
     a3.1.builds = a1.1.builds + 1 ∧
     a3.1.engine = some (a3.2, langOf ["kor"])) :=
  ⟨by decide, (claim_C4 ⟨none, 0⟩ ["eng"] ["kor"]).2 (by decide)⟩

/-- C2: when the first word-box predict call raises `RuntimeError`,
`generate_ocr` invalidates the cached engine, re-acquires it (exactly one
rebuild), and retries the original call with word boxes exactly once — the
trace has exactly two calls, both with the word-box flag — and if the single
retry also fails, that fault is the outcome, uncaught. -/
theorem claim_C2 (predict : Nat → Bool → Except Fault (List OcrResult))
    (s : CacheState) (languages : List String) (w h dpi : ℚ) (pn : Nat)
    (h0 : predict 0 true = .error .runtimeError) :
    let a1 := _get_paddle_engine s languages
    let a2 := _get_paddle_engine (_reset_paddle_engine a1.1) languages
    let g := generate_ocr predict s languages w h dpi pn
    g.2.1 = a2.1 ∧
    g.2.2 = [(a1.2, true), (a2.2, true)] ∧
    a2.1.builds = a1.1.builds + 1 ∧
    (∀ f, predict 1 true = .error f → g.1 = .error f) ∧
    (∀ r, predict 1 true = .ok r →
      g.1 = .ok (generate_ocr_assemble w h dpi pn r)) := by
  have hbuilds : (_get_paddle_engine
      (_reset_paddle_engine (_get_paddle_engine s languages).1) languages).1.builds =
      (_get_paddle_engine s languages).1.builds + 1 := by
    rw [acquire_build (_reset_paddle_engine (_get_paddle_engine s languages).1)
      languages (by intro e he; simp [_reset_paddle_engine] at he)]
    rfl
  refine ⟨?_, ?_, hbuilds, ?_, ?_⟩
  · simp only [generate_ocr, h0]
    cases h1 : predict 1 true <;> simp
  · simp only [generate_ocr, h0]
    cases h1 : predict 1 true <;> simp
  · intro f h1
    simp only [generate_ocr, h0, h1]
  · intro r h1
    simp only [generate_ocr, h0, h1]

/-- Witness for C2: a predictor whose first attempt raises `RuntimeError`
and whose retry raises `KeyError`; the fault of the retry is the outcome. -/
theorem claim_C2_witness :
    (let a1 := _get_paddle_engine ⟨none, 0⟩ []
     let a2 := _get_paddle_engine (_reset_paddle_engine a1.1) []
     let g := generate_ocr
       (fun n _ => if n = 0 then .error .runtimeError else .error .keyError)
       ⟨none, 0⟩ [] 612 792 300 0
     g.2.1 = a2.1 ∧
     g.2.2 = [(a1.2, true), (a2.2, true)] ∧
     a2.1.builds = a1.1.builds + 1 ∧
     (∀ f, (if (1 : Nat) = 0 then (.error .runtimeError : Except Fault (List OcrResult))
            else .error .keyError) = .error f → g.1 = .error f) ∧
     (∀ r, (if (1 : Nat) = 0 then (.error .runtimeError : Except Fault (List OcrResult))
            else .error .keyError) = .ok r →
       g.1 = .ok (generate_ocr_assemble 612 792 300 0 r))) :=
  claim_C2 (fun n _ => if n = 0 then .error .runtimeError else .error .keyError)
    ⟨none, 0⟩ [] 612 792 300 0 rfl

/-- C3: when the first word-box predict call raises `KeyError` (the
data-shape fault), `generate_ocr` retries exactly once with word boxes
disabled on the same engine — the cache is neither invalidated nor rebuilt —
and, the data-shape fault being a defect of the word-box path only, it is
never the outcome surfaced to the caller. -/
theorem claim_C3 (predict : Nat → Bool → Except Fault (List OcrResult))
    (s : CacheState) (languages : List String) (w h dpi : ℚ) (pn : Nat)
    (h0 : predict 0 true = .error .keyError) :
    let a1 := _get_paddle_engine s languages
    let g := generate_ocr predict s languages w h dpi pn
    g.2.1 = a1.1 ∧
    g.2.2 = [(a1.2, true), (a1.2, false)] ∧
    (∀ r, predict 1 false = .ok r →
      g.1 = .ok (generate_ocr_assemble w h dpi pn r)) ∧
    (predict 1 false ≠ .error Fault.keyError →
      g.1 ≠ .error Fault.keyError) := by
  refine ⟨?_, ?_, ?_, ?_⟩
  · simp only [generate_ocr, h0]
    cases h1 : predict 1 false <;> simp
  · simp only [generate_ocr, h0]
    cases h1 : predict 1 false <;> simp
  · intro r h1
    simp only [generate_ocr, h0, h1]
  · intro hne
    simp only [generate_ocr, h0]
    cases h1 : predict 1 false with
    | ok r => simp
    | error f =>
      cases f with
      | keyError => exact absurd h1 hne
      | runtimeError => simp

/-- Witness for C3: a predictor whose first word-box attempt raises
`KeyError` and whose word-box-free retry succeeds with an empty result. -/
theorem claim_C3_witness :
    (let a1 := _get_paddle_engine ⟨none, 0⟩ []
     let g := generate_ocr
       (fun _ wb => if wb then .error .keyError else .ok [])
       ⟨none, 0⟩ [] 612 792 300 0
     g.2.1 = a1.1 ∧
     g.2.2 = [(a1.2, true), (a1.2, false)] ∧
     (∀ r, (if false then (.error .keyError : Except Fault (List OcrResult))
            else .ok []) = .ok r →
       g.1 = .ok (generate_ocr_assemble 612 792 300 0 r)) ∧
     ((if false then (.error .keyError : Except Fault (List OcrResult))
       else .ok []) ≠ .error Fault.keyError →
      g.1 ≠ .error Fault.keyError)) :=
  claim_C3 (fun _ wb => if wb then .error .keyError else .ok [])
    ⟨none, 0⟩ [] 612 792 300 0 rfl

/-- Every word produced by the word loop carries the given (line) score. -/
theorem assembleWords_conf (toks : List String) (quads : List Quad) (sc : ℚ)
    (wrd : Word) (h : wrd ∈ assembleWords toks quads sc) :
    wrd.confidence = sc := by
  unfold assembleWords at h
  obtain ⟨tq, _, hf⟩ := List.mem_filterMap.mp h
  by_cases h1 : strip tq.1 = ""
  · simp [h1] at hf
  · cases hq : _quad_to_bbox tq.2 with
    | none => simp [h1, hq] at hf
    | some b =>
      simp [h1, hq] at hf
      rw [← hf]

/-- The texts of the words produced by the word loop are exactly the trimmed
non-blank tokens whose paired quad is non-degenerate, in order. -/
theorem assembleWords_texts (toks : List String) (quads : List Quad) (sc : ℚ) :
    (assembleWords toks quads sc).map Word.text = trimmedValidTokens toks quads := by
  unfold assembleWords trimmedValidTokens
  induction toks.zip quads with
  | nil => simp
  | cons tq rest ih =>
    simp only [List.filterMap_cons]
    by_cases h1 : strip tq.1 = ""
    · simp [h1, ih]
    · cases hq : _quad_to_bbox tq.2 with
      | none => simp [h1, hq, ih]
      | some b => simp [h1, hq, ih]

/-- A successful iteration of the line loop computes exactly the spec-side
line contribution. -/
theorem lineStep_ok (hwb : Bool) (tw : List (List String))
    (twr : List (List Quad)) (i : Nat) (t : String) (sc : ℚ) (box : RecBox)
    (r : Option (Line × String))
    (hok : lineStep hwb tw twr i t sc box = .ok r) :
    r = specLineOf hwb tw twr i t sc box := by
  unfold lineStep at hok
  unfold specLineOf specWords
  by_cases h1 : strip t = ""
  · simp only [if_pos h1] at hok ⊢
    exact (Except.ok.inj hok).symm
  · simp only [if_neg h1] at hok ⊢
    by_cases h2 : box.x2 ≤ box.x1 ∨ box.y2 ≤ box.y1
    · simp only [if_pos h2] at hok ⊢
      exact (Except.ok.inj hok).symm
    · simp only [if_neg h2] at hok ⊢
      by_cases h3 : hwb = true ∧ i < tw.length ∧ tw.getD i [] ≠ []
      · simp only [if_pos h3] at hok ⊢
        by_cases h4 : i < twr.length
        · simp only [if_pos h4] at hok
          by_cases h5 : assembleWords (tw.getD i []) (twr.getD i []) sc = []
          · simp only [if_pos h5] at hok ⊢
            exact (Except.ok.inj hok).symm
          · simp only [if_neg h5] at hok ⊢
            exact (Except.ok.inj hok).symm
        · simp only [if_neg h4] at hok
          exact absurd hok (by simp)
      · simp only [if_neg h3] at hok ⊢
        have h5 : [({ bbox := recBBox box, text := t, confidence := sc } : Word)] ≠ [] := by
          simp
        simp only [if_neg h5]
        exact (Except.ok.inj hok).symm

/-- Inversion for a spec-side attached line: the text was non-blank, the box
non-degenerate, and the line node carries that box, the entry text and a
non-empty word list given by `specWords`. -/
theorem specLineOf_some (hwb : Bool) (tw : List (List String))
    (twr : List (List Quad)) (i : Nat) (t : String) (sc : ℚ) (box : RecBox)
    (l : Line) (tx : String)
    (h : specLineOf hwb tw twr i t sc box = some (l, tx)) :
    strip t ≠ "" ∧ ¬(box.x2 ≤ box.x1 ∨ box.y2 ≤ box.y1) ∧
    l.bbox = { left := box.x1, top := box.y1, right := box.x2, bottom := box.y2 } ∧
    tx = t ∧
    l.children = specWords hwb tw twr i t sc box ∧ l.children ≠ [] := by
  unfold specLineOf at h
  by_cases h1 : strip t = ""
  · simp only [if_pos h1] at h
    exact absurd h (by simp)
  · simp only [if_neg h1] at h
    by_cases h2 : box.x2 ≤ box.x1 ∨ box.y2 ≤ box.y1
    · simp only [if_pos h2] at h
      exact absurd h (by simp)
    · simp only [if_neg h2] at h
      by_cases h5 : specWords hwb tw twr i t sc box = []
      · simp only [if_pos h5] at h
        exact absurd h (by simp)
      · simp only [if_neg h5] at h
        have hp := Option.some.inj h
        injection hp with hl htx
        subst hl
        subst htx
        exact ⟨h1, h2, rfl, rfl, rfl, by simpa using h5⟩

/-- C6: `_quad_to_bbox` returns no box exactly when the enclosing
axis-aligned box of the four points (min/max of the coordinates) has zero or
negative width or height, and any returned box satisfies `left < right` and
`top < bottom`; the same degeneracy rule governs the inline `[x1,y1,x2,y2]`
line-box conversion in the line loop, where a degenerate box makes the
iteration skip the element (`.ok none`) rather than fail, and any attached
line carries a box with `left < right` and `top < bottom`. -/
theorem claim_C6 (q : Quad) :
    (_quad_to_bbox q = none ↔
      max (max (max q.p1.1 q.p2.1) q.p3.1) q.p4.1 ≤
        min (min (min q.p1.1 q.p2.1) q.p3.1) q.p4.1 ∨
      max (max (max q.p1.2 q.p2.2) q.p3.2) q.p4.2 ≤
        min (min (min q.p1.2 q.p2.2) q.p3.2) q.p4.2) ∧
    (∀ b, _quad_to_bbox q = some b → b.left < b.right ∧ b.top < b.bottom) ∧
    (∀ (hwb : Bool) (tw : List (List String)) (twr : List (List Quad))
       (i : Nat) (t : String) (sc : ℚ) (box : RecBox),
      box.x2 ≤ box.x1 ∨ box.y2 ≤ box.y1 →
      lineStep hwb tw twr i t sc box = .ok none) ∧
    (∀ (hwb : Bool) (tw : List (List String)) (twr : List (List Quad))
       (i : Nat) (t : String) (sc : ℚ) (box : RecBox) (l : Line) (tx : String),
      lineStep hwb tw twr i t sc box = .ok (some (l, tx)) →
      l.bbox.left < l.bbox.right ∧ l.bbox.top < l.bbox.bottom) := by
  refine ⟨?_, ?_, ?_, ?_⟩
  · simp only [_quad_to_bbox]
    by_cases hd : max (max (max q.p1.1 q.p2.1) q.p3.1) q.p4.1 ≤
        min (min (min q.p1.1 q.p2.1) q.p3.1) q.p4.1 ∨
        max (max (max q.p1.2 q.p2.2) q.p3.2) q.p4.2 ≤
        min (min (min q.p1.2 q.p2.2) q.p3.2) q.p4.2
    · rw [if_pos hd]
      exact iff_of_true rfl hd
    · rw [if_neg hd]
      exact iff_of_false (by simp) hd
  · intro b hb
    simp only [_quad_to_bbox] at hb
    by_cases hd : max (max (max q.p1.1 q.p2.1) q.p3.1) q.p4.1 ≤
        min (min (min q.p1.1 q.p2.1) q.p3.1) q.p4.1 ∨
        max (max (max q.p1.2 q.p2.2) q.p3.2) q.p4.2 ≤
        min (min (min q.p1.2 q.p2.2) q.p3.2) q.p4.2
    · rw [if_pos hd] at hb
      exact absurd hb (by simp)
    · rw [if_neg hd] at hb
      have hb2 := Option.some.inj hb
      push_neg at hd
      rw [← hb2]
      exact ⟨hd.1, hd.2⟩
  · intro hwb tw twr i t sc box hdeg
    unfold lineStep
    by_cases h1 : strip t = ""
    · rw [if_pos h1]
    · rw [if_neg h1, if_pos hdeg]
  · intro hwb tw twr i t sc box l tx hok
    have hr := lineStep_ok hwb tw twr i t sc box _ hok
    obtain ⟨_, h2, hbox, _, _, _⟩ := specLineOf_some hwb tw twr i t sc box l tx hr.symm
    push_neg at h2
    rw [hbox]
    exact ⟨h2.1, h2.2⟩

/-- Witness for C6 at a concrete quad, box and line-loop input. -/
theorem claim_C6_witness :
    ((0 : ℚ) < 10 ∧ (0 : ℚ) < 5) ∧
    lineStep false [] [] 0 "x" 1 { x1 := 5, y1 := 5, x2 := 5, y2 := 9 } =
      .ok none :=
  ⟨(claim_C6 { p1 := (0, 0), p2 := (10, 0), p3 := (10, 5), p4 := (0, 5) }).2.1
      { left := 0, top := 0, right := 10, bottom := 5 } rfl,
   (claim_C6 { p1 := (0, 0), p2 := (10, 0), p3 := (10, 5), p4 := (0, 5) }).2.2.1
      false [] [] 0 "x" 1 { x1 := 5, y1 := 5, x2 := 5, y2 := 9 }
      (Or.inl (by decide))⟩

/-- C9: `get_orientation` returns angle 0 and confidence 0 on an empty
result; on a non-empty result whose first record carries a top label among
{0, 90, 180, 270} and a top score in [0, 1], it returns that label as the
angle with the score rescaled by 15, so the confidence lies in [0, 15]. -/
theorem claim_C9 (r : OrientRec) (rest : List OrientRec) (a : Int)
    (labels : List Int) (sc : ℚ) (scores : List ℚ)
    (hl : r.label_names = a :: labels) (hs : r.scores = sc :: scores)
    (ha : a = 0 ∨ a = 90 ∨ a = 180 ∨ a = 270)
    (h0 : 0 ≤ sc) (h1 : sc ≤ 1) :
    get_orientation [] = some { angle := 0, confidence := 0 } ∧
    get_orientation (r :: rest) = some { angle := a, confidence := sc * 15 } ∧
    (a = 0 ∨ a = 90 ∨ a = 180 ∨ a = 270) ∧
    0 ≤ sc * 15 ∧ sc * 15 ≤ 15 := by
  refine ⟨rfl, ?_, ha, ?_, ?_⟩
  · simp only [get_orientation]
    rw [hl, hs]
  · exact mul_nonneg h0 (by norm_num)
  · have hle : sc * 15 ≤ 1 * 15 := mul_le_mul_of_nonneg_right h1 (by norm_num)
    simpa using hle

/-- Witness for C9: one record with top label 90 and top score 1. -/
theorem claim_C9_witness :
    get_orientation [] = some { angle := 0, confidence := 0 } ∧
    get_orientation [{ label_names := [90], scores := [1] }] =
      some { angle := 90, confidence := (1 : ℚ) * 15 } ∧
    ((90 : Int) = 0 ∨ (90 : Int) = 90 ∨ (90 : Int) = 180 ∨ (90 : Int) = 270) ∧
    0 ≤ (1 : ℚ) * 15 ∧ (1 : ℚ) * 15 ≤ 15 :=
  claim_C9 { label_names := [90], scores := [1] } [] 90 [] 1 [] rfl rfl
    (by decide) (by decide) (by decide)

/-- A successful run of the line loop produces exactly the spec-side
attached lines and their texts, in order. -/
theorem assembleLoop_ok (hwb : Bool) (tw : List (List String))
    (twr : List (List Quad)) :
    ∀ (entries : List (String × ℚ × RecBox)) (i : Nat) (ls : List Line)
      (ts : List String),
      assembleLoop hwb tw twr i entries = .ok (ls, ts) →
      ls = (specAttachedFrom hwb tw twr i entries).map Prod.fst ∧
      ts = (specAttachedFrom hwb tw twr i entries).map Prod.snd := by
  intro entries
  induction entries with
  | nil =>
    intro i ls ts hok
    unfold assembleLoop at hok
    have hp := Except.ok.inj hok
    injection hp with h1 h2
    refine ⟨?_, ?_⟩
    · rw [← h1]
      simp [specAttachedFrom]
    · rw [← h2]
      simp [specAttachedFrom]
  | cons e rest ih =>
    obtain ⟨t, sc, b⟩ := e
    intro i ls ts hok
    unfold assembleLoop at hok
    cases hstep : lineStep hwb tw twr i t sc b with
    | error err =>
      rw [hstep] at hok
      dsimp only at hok
      exact absurd hok (by simp)
    | ok r =>
      rw [hstep] at hok
      dsimp only at hok
      cases hrest : assembleLoop hwb tw twr (i + 1) rest with
      | error err =>
        rw [hrest] at hok
        dsimp only at hok
        exact absurd hok (by simp)
      | ok p =>
        obtain ⟨ls2, ts2⟩ := p
        rw [hrest] at hok
        dsimp only at hok
        obtain ⟨ih1, ih2⟩ := ih (i + 1) ls2 ts2 hrest
        have hr := lineStep_ok hwb tw twr i t sc b r hstep
        have hcons : specAttachedFrom hwb tw twr i ((t, sc, b) :: rest) =
            (match specLineOf hwb tw twr i t sc b with
             | none => specAttachedFrom hwb tw twr (i + 1) rest
             | some x => x :: specAttachedFrom hwb tw twr (i + 1) rest) := by
          simp only [specAttachedFrom, List.enumFrom_cons, List.filterMap_cons]
          cases specLineOf hwb tw twr i t sc b <;> rfl
        cases hr2 : specLineOf hwb tw twr i t sc b with
        | none =>
          rw [hr2] at hr
          subst hr
          dsimp only at hok
          rw [hcons, hr2]
          have hp := Except.ok.inj hok
          injection hp with h1 h2
          exact ⟨by rw [← h1, ih1], by rw [← h2, ih2]⟩
        | some x =>
          obtain ⟨l, tx⟩ := x
          rw [hr2] at hr
          subst hr
          dsimp only at hok
          rw [hcons, hr2]
          have hp := Except.ok.inj hok
          injection hp with h1 h2
          refine ⟨?_, ?_⟩
          · rw [← h1, ih1]
            rfl
          · rw [← h2, ih2]
            rfl

/-- C5: whenever assembly succeeds, the page's LINE children are exactly the
entries with non-blank text, a non-degenerate line box, and at least one
WORD child — in order — and the returned flat text is the newline-join of
exactly those lines' texts. -/
theorem claim_C5 (w h dpi : ℚ) (pn : Nat) (d : OcrResult)
    (rest : List OcrResult) (pg : Page) (txt : String)
    (hok : generate_ocr_assemble w h dpi pn (d :: rest) = .ok (pg, txt)) :
    pg.children =
      (specAttachedLines (hwbOf d) d.text_word d.text_word_region
        (zip3 d.rec_texts d.rec_scores d.rec_boxes)).map Prod.fst ∧
    txt = String.intercalate "\n"
      ((specAttachedLines (hwbOf d) d.text_word d.text_word_region
        (zip3 d.rec_texts d.rec_scores d.rec_boxes)).map Prod.snd) := by
  unfold generate_ocr_assemble at hok
  dsimp only at hok
  by_cases he : d.isEmptyRes = true
  · rw [if_pos he] at hok
    have hp := Except.ok.inj hok
    injection hp with h1 h2
    have htexts : d.rec_texts = [] := by
      unfold OcrResult.isEmptyRes at he
      simp only [Bool.and_eq_true, List.isEmpty_iff] at he
      exact he.1.1.1.1.1
    refine ⟨?_, ?_⟩
    · rw [← h1]
      rw [htexts]
      simp [specAttachedLines, specAttachedFrom, zip3]
    · rw [← h2]
      rw [htexts]
      simp only [specAttachedLines, specAttachedFrom, zip3, List.enumFrom_nil,
        List.filterMap_nil, List.map_nil]
      rfl
  · rw [if_neg he] at hok
    by_cases ht : d.rec_texts.isEmpty = true
    · rw [if_pos ht] at hok
      have hp := Except.ok.inj hok
      injection hp with h1 h2
      have htexts : d.rec_texts = [] := List.isEmpty_iff.mp ht
      refine ⟨?_, ?_⟩
      · rw [← h1]
        rw [htexts]
        simp [specAttachedLines, specAttachedFrom, zip3]
      · rw [← h2]
        rw [htexts]
        simp only [specAttachedLines, specAttachedFrom, zip3, List.enumFrom_nil,
          List.filterMap_nil, List.map_nil]
        rfl
    · rw [if_neg ht] at hok
      cases hloop : assembleLoop (hwbOf d) d.text_word d.text_word_region 0
          (zip3 d.rec_texts d.rec_scores d.rec_boxes) with
      | error err =>
        rw [hloop] at hok
        dsimp only at hok
        exact absurd hok (by simp)
      | ok p =>
        obtain ⟨ls, ts⟩ := p
        rw [hloop] at hok
        dsimp only at hok
        have hp := Except.ok.inj hok
        injection hp with h1 h2
        obtain ⟨hl, ht2⟩ := assembleLoop_ok (hwbOf d) d.text_word
          d.text_word_region (zip3 d.rec_texts d.rec_scores d.rec_boxes) 0
          ls ts hloop
        refine ⟨?_, ?_⟩
        · rw [← h1]
          exact hl
        · rw [← h2, ht2]
          rfl

/-- C8: every WORD child of an attached line carries the line's confidence
score; with word-level detail present and non-empty for the line, the word
texts are exactly the trimmed non-blank tokens with a non-degenerate quad;
otherwise the line has exactly one WORD spanning the whole line box with the
full line text. -/
theorem claim_C8 (hwb : Bool) (tw : List (List String))
    (twr : List (List Quad)) (i : Nat) (t : String) (sc : ℚ) (box : RecBox)
    (l : Line) (tx : String)
    (hok : lineStep hwb tw twr i t sc box = .ok (some (l, tx))) :
    (∀ wrd ∈ l.children, wrd.confidence = sc) ∧
    ((hwb = true ∧ i < tw.length ∧ tw.getD i [] ≠ []) →
      l.children.map Word.text =
        trimmedValidTokens (tw.getD i []) (twr.getD i [])) ∧
    (¬(hwb = true ∧ i < tw.length ∧ tw.getD i [] ≠ []) →
      l.children = [{ bbox := recBBox box, text := t, confidence := sc }] ∧
      l.bbox = recBBox box) := by
  have hr := lineStep_ok hwb tw twr i t sc box _ hok
  obtain ⟨_, _, hbox, _, hch, _⟩ :=
    specLineOf_some hwb tw twr i t sc box l tx hr.symm
  refine ⟨?_, ?_, ?_⟩
  · intro wrd hw
    rw [hch] at hw
    unfold specWords at hw
    by_cases h3 : hwb = true ∧ i < tw.length ∧ tw.getD i [] ≠ []
    · rw [if_pos h3] at hw
      exact assembleWords_conf _ _ _ _ hw
    · rw [if_neg h3] at hw
      simp at hw
      rw [hw]
  · intro h3
    rw [hch]
    unfold specWords
    rw [if_pos h3]
    exact assembleWords_texts _ _ _
  · intro h3
    refine ⟨?_, hbox⟩
    rw [hch]
    unfold specWords
    rw [if_neg h3]

/-- Witness for C5: one recognized line with no word-level detail. -/
theorem claim_C5_witness :
    generate_ocr_assemble 612 792 300 0
      [{ rec_texts := ["Hello World"], rec_scores := [1],
         rec_boxes := [{ x1 := 10, y1 := 10, x2 := 200, y2 := 40 }],
         text_word := [], text_word_region := [], dt_polys := [] }] =
      .ok ({ bbox := { left := 0, top := 0, right := 612, bottom := 792 },
             dpi := 300, page_number := 0,
             children := [{ bbox := { left := 10, top := 10, right := 200,
                                      bottom := 40 },
                            children := [{ bbox := { left := 10, top := 10,
                                                     right := 200, bottom := 40 },
                                           text := "Hello World",
                                           confidence := 1 }] }] },
            "Hello World") ∧
    ({ bbox := { left := 0, top := 0, right := 612, bottom := 792 },
       dpi := 300, page_number := 0,
       children := [{ bbox := { left := 10, top := 10, right := 200,
                                bottom := 40 },
                      children := [{ bbox := { left := 10, top := 10,
                                               right := 200, bottom := 40 },
                                     text := "Hello World",
                                     confidence := 1 }] }] } : Page).children =
      [{ bbox := { left := 10, top := 10, right := 200, bottom := 40 },
         children := [{ bbox := { left := 10, top := 10, right := 200,
                                  bottom := 40 },
                        text := "Hello World", confidence := 1 }] }] ∧
    "Hello World" = String.intercalate "\n" ["Hello World"] :=
  ⟨rfl,
   (claim_C5 612 792 300 0
     { rec_texts := ["Hello World"], rec_scores := [1],
       rec_boxes := [{ x1 := 10, y1 := 10, x2 := 200, y2 := 40 }],
       text_word := [], text_word_region := [], dt_polys := [] } []
     { bbox := { left := 0, top := 0, right := 612, bottom := 792 },
       dpi := 300, page_number := 0,
       children := [{ bbox := { left := 10, top := 10, right := 200,
                                bottom := 40 },
                      children := [{ bbox := { left := 10, top := 10,
                                               right := 200, bottom := 40 },
                                     text := "Hello World",
                                     confidence := 1 }] }] }
     "Hello World" rfl).1.trans rfl,
   ((claim_C5 612 792 300 0
     { rec_texts := ["Hello World"], rec_scores := [1],
       rec_boxes := [{ x1 := 10, y1 := 10, x2 := 200, y2 := 40 }],
       text_word := [], text_word_region := [], dt_polys := [] } []
     { bbox := { left := 0, top := 0, right := 612, bottom := 792 },
       dpi := 300, page_number := 0,
       children := [{ bbox := { left := 10, top := 10, right := 200,
                                bottom := 40 },
                      children := [{ bbox := { left := 10, top := 10,
                                               right := 200, bottom := 40 },
                                     text := "Hello World",
                                     confidence := 1 }] }] }
     "Hello World" rfl).2).trans rfl⟩

/-- Witness for C8: a line with two tokens, both with non-degenerate quads. -/
theorem claim_C8_witness :
    lineStep true [["Hello", "World"]]
      [[{ p1 := (10, 10), p2 := (50, 10), p3 := (50, 40), p4 := (10, 40) },
        { p1 := (60, 10), p2 := (100, 10), p3 := (100, 40), p4 := (60, 40) }]]
      0 "Hello World" 1 { x1 := 10, y1 := 10, x2 := 200, y2 := 40 } =
      .ok (some ({ bbox := { left := 10, top := 10, right := 200, bottom := 40 },
                   children :=
                     [{ bbox := { left := 10, top := 10, right := 50, bottom := 40 },
                        text := "Hello", confidence := 1 },
                      { bbox := { left := 60, top := 10, right := 100, bottom := 40 },
                        text := "World", confidence := 1 }] },
                 "Hello World")) ∧
    (∀ wrd ∈ ({ bbox := { left := 10, top := 10, right := 200, bottom := 40 },
                children :=
                  [{ bbox := { left := 10, top := 10, right := 50, bottom := 40 },
                     text := "Hello", confidence := 1 },
                   { bbox := { left := 60, top := 10, right := 100, bottom := 40 },
                     text := "World", confidence := 1 }] } : Line).children,
      wrd.confidence = 1) ∧
    ((true = true ∧ 0 < ([["Hello", "World"]] : List (List String)).length ∧
       ([["Hello", "World"]] : List (List String)).getD 0 [] ≠ []) →
      ({ bbox := { left := 10, top := 10, right := 200, bottom := 40 },
         children :=
           [{ bbox := { left := 10, top := 10, right := 50, bottom := 40 },
              text := "Hello", confidence := 1 },
            { bbox := { left := 60, top := 10, right := 100, bottom := 40 },
              text := "World", confidence := 1 }] } : Line).children.map Word.text =
        trimmedValidTokens (([["Hello", "World"]] : List (List String)).getD 0 [])
          (([[{ p1 := (10, 10), p2 := (50, 10), p3 := (50, 40), p4 := (10, 40) },
              { p1 := (60, 10), p2 := (100, 10), p3 := (100, 40), p4 := (60, 40) }]] :
            List (List Quad)).getD 0 [])) ∧
    (¬(true = true ∧ 0 < ([["Hello", "World"]] : List (List String)).length ∧
       ([["Hello", "World"]] : List (List String)).getD 0 [] ≠ []) →
      ({ bbox := { left := 10, top := 10, right := 200, bottom := 40 },
         children :=
           [{ bbox := { left := 10, top := 10, right := 50, bottom := 40 },
              text := "Hello", confidence := 1 },
            { bbox := { left := 60, top := 10, right := 100, bottom := 40 },
              text := "World", confidence := 1 }] } : Line).children =
        [{ bbox := recBBox { x1 := 10, y1 := 10, x2 := 200, y2 := 40 },
           text := "Hello World", confidence := 1 }] ∧
      ({ bbox := { left := 10, top := 10, right := 200, bottom := 40 },
         children :=
           [{ bbox := { left := 10, top := 10, right := 50, bottom := 40 },
              text := "Hello", confidence := 1 },
            { bbox := { left := 60, top := 10, right := 100, bottom := 40 },
              text := "World", confidence := 1 }] } : Line).bbox =
        recBBox { x1 := 10, y1 := 10, x2 := 200, y2 := 40 }) :=
  ⟨rfl,
   claim_C8 true [["Hello", "World"]]
     [[{ p1 := (10, 10), p2 := (50, 10), p3 := (50, 40), p4 := (10, 40) },
       { p1 := (60, 10), p2 := (100, 10), p3 := (100, 40), p4 := (60, 40) }]]
     0 "Hello World" 1 { x1 := 10, y1 := 10, x2 := 200, y2 := 40 }
     { bbox := { left := 10, top := 10, right := 200, bottom := 40 },
       children :=
         [{ bbox := { left := 10, top := 10, right := 50, bottom := 40 },
            text := "Hello", confidence := 1 },
          { bbox := { left := 60, top := 10, right := 100, bottom := 40 },
            text := "World", confidence := 1 }] }
     "Hello World" rfl⟩

/-- C10 fails on the code as stated: word-level detail present (both arrays
non-empty), but the region list is shorter than the token list; the guarded
read of `text_word_regions[1]` is out of bounds and the whole call fails
with an `IndexError` instead of producing a page. -/
theorem claim_C10_counterexample :
    generate_ocr_assemble 100 100 300 0
      [{ rec_texts := ["a", "b"], rec_scores := [1, 1],
         rec_boxes := [{ x1 := 0, y1 := 0, x2 := 5, y2 := 5 },
                       { x1 := 0, y1 := 0, x2 := 5, y2 := 5 }],
         text_word := [["a"], ["b"]],
         text_word_region :=
           [[{ p1 := (0, 0), p2 := (1, 0), p3 := (1, 1), p4 := (0, 1) }]],
         dt_polys := [] }] = .error .indexError := rfl

/-- Zipping ignores the surplus tail of the right list. -/
theorem zip_drops_right {α β : Type} :
    ∀ (as : List α) (bs cs : List β), as.length ≤ bs.length →
      as.zip (bs ++ cs) = as.zip bs
  | [], _, _, _ => by simp
  | _ :: _, [], _, h => by simp at h
  | a :: as, b :: bs, cs, h => by
    simp only [List.cons_append, List.zip_cons_cons]
    rw [zip_drops_right as bs cs (by simpa using h)]

/-- Zipping ignores the surplus tail of the left list. -/
theorem zip_drops_left {α β : Type} :
    ∀ (as cs : List α) (bs : List β), bs.length ≤ as.length →
      (as ++ cs).zip bs = as.zip bs
  | _, _, [], _ => by simp
  | [], _, _ :: _, h => by simp at h
  | a :: as, cs, b :: bs, h => by
    simp only [List.cons_append, List.zip_cons_cons]
    rw [zip_drops_left as cs bs (by simpa using h)]

/-- When the region list is at least as long as the token list, one line
iteration never faults. -/
theorem lineStep_total (hwb : Bool) (tw : List (List String))
    (twr : List (List Quad)) (i : Nat) (t : String) (sc : ℚ) (box : RecBox)
    (hlen : tw.length ≤ twr.length) :
    ∃ r, lineStep hwb tw twr i t sc box = .ok r := by
  unfold lineStep
  by_cases h1 : strip t = ""
  · rw [if_pos h1]
    exact ⟨none, rfl⟩
  · rw [if_neg h1]
    by_cases h2 : box.x2 ≤ box.x1 ∨ box.y2 ≤ box.y1
    · rw [if_pos h2]
      exact ⟨none, rfl⟩
    · rw [if_neg h2]
      by_cases h3 : hwb = true ∧ i < tw.length ∧ tw.getD i [] ≠ []
      · rw [if_pos h3, if_pos (lt_of_lt_of_le h3.2.1 hlen)]
        by_cases h5 : assembleWords (tw.getD i []) (twr.getD i []) sc = []
        · rw [if_pos h5]
          exact ⟨none, rfl⟩
        · rw [if_neg h5]
          exact ⟨_, rfl⟩
      · rw [if_neg h3]
        exact ⟨_, rfl⟩

/-- When the region list is at least as long as the token list, the whole
line loop never faults. -/
theorem assembleLoop_total (hwb : Bool) (tw : List (List String))
    (twr : List (List Quad)) (hlen : tw.length ≤ twr.length) :
    ∀ (entries : List (String × ℚ × RecBox)) (i : Nat),
      ∃ p, assembleLoop hwb tw twr i entries = .ok p := by
  intro entries
  induction entries with
  | nil =>
    intro i
    exact ⟨([], []), rfl⟩
  | cons e rest ih =>
    obtain ⟨t, sc, b⟩ := e
    intro i
    obtain ⟨r, hr⟩ := lineStep_total hwb tw twr i t sc b hlen
    obtain ⟨⟨ls, ts⟩, hp⟩ := ih (i + 1)
    unfold assembleLoop
    rw [hr, hp]
    cases r with
    | none => exact ⟨(ls, ts), rfl⟩
    | some x =>
      obtain ⟨l, tx⟩ := x
      exact ⟨(l :: ls, tx :: ts), rfl⟩

/-- C10, amended: the guarded read is safe — and the whole assembly
succeeds — provided the per-line region array is at least as long as the
per-line token array (the engine's parallel-array shape); and within a line
tokens and quads are paired positionally, surplus entries of the longer
array being dropped silently. -/
theorem claim_C10 (w h dpi : ℚ) (pn : Nat) (d : OcrResult)
    (rest : List OcrResult)
    (hlen : d.text_word.length ≤ d.text_word_region.length) :
    (∃ out, generate_ocr_assemble w h dpi pn (d :: rest) = .ok out) ∧
    (∀ (toks : List String) (quads extra : List Quad) (sc : ℚ),
      toks.length ≤ quads.length →
      assembleWords toks (quads ++ extra) sc = assembleWords toks quads sc) ∧
    (∀ (toks extra : List String) (quads : List Quad) (sc : ℚ),
      quads.length ≤ toks.length →
      assembleWords (toks ++ extra) quads sc = assembleWords toks quads sc) := by
  refine ⟨?_, ?_, ?_⟩
  · unfold generate_ocr_assemble
    dsimp only
    by_cases he : d.isEmptyRes = true
    · rw [if_pos he]
      exact ⟨_, rfl⟩
    · rw [if_neg he]
      by_cases ht : d.rec_texts.isEmpty = true
      · rw [if_pos ht]
        exact ⟨_, rfl⟩
      · rw [if_neg ht]
        obtain ⟨⟨ls, ts⟩, hp⟩ := assembleLoop_total (hwbOf d) d.text_word
          d.text_word_region hlen
          (zip3 d.rec_texts d.rec_scores d.rec_boxes) 0
        rw [hp]
        exact ⟨_, rfl⟩
  · intro toks quads extra sc hle
    unfold assembleWords
    rw [zip_drops_right toks quads extra hle]
  · intro toks extra quads sc hle
    unfold assembleWords
    rw [zip_drops_left toks extra quads hle]

/-- Witness for C10 at a result whose region list is long enough. -/
theorem claim_C10_witness :
    ({ rec_texts := ["a"], rec_scores := [1],
       rec_boxes := [{ x1 := 0, y1 := 0, x2 := 5, y2 := 5 }],
       text_word := [["a"]],
       text_word_region :=
         [[{ p1 := (0, 0), p2 := (1, 0), p3 := (1, 1), p4 := (0, 1) }]],
       dt_polys := [] } : OcrResult).text_word.length ≤
      ({ rec_texts := ["a"], rec_scores := [1],
         rec_boxes := [{ x1 := 0, y1 := 0, x2 := 5, y2 := 5 }],
         text_word := [["a"]],
         text_word_region :=
           [[{ p1 := (0, 0), p2 := (1, 0), p3 := (1, 1), p4 := (0, 1) }]],
         dt_polys := [] } : OcrResult).text_word_region.length ∧
    ((∃ out, generate_ocr_assemble 10 10 300 0
        [{ rec_texts := ["a"], rec_scores := [1],
           rec_boxes := [{ x1 := 0, y1 := 0, x2 := 5, y2 := 5 }],
           text_word := [["a"]],
           text_word_region :=
             [[{ p1 := (0, 0), p2 := (1, 0), p3 := (1, 1), p4 := (0, 1) }]],
           dt_polys := [] }] = .ok out) ∧
     (∀ (toks : List String) (quads extra : List Quad) (sc : ℚ),
       toks.length ≤ quads.length →
       assembleWords toks (quads ++ extra) sc = assembleWords toks quads sc) ∧
     (∀ (toks extra : List String) (quads : List Quad) (sc : ℚ),
       quads.length ≤ toks.length →
       assembleWords (toks ++ extra) quads sc = assembleWords toks quads sc)) :=
  ⟨by decide,
   claim_C10 10 10 300 0
     { rec_texts := ["a"], rec_scores := [1],
       rec_boxes := [{ x1 := 0, y1 := 0, x2 := 5, y2 := 5 }],
       text_word := [["a"]],
       text_word_region :=
         [[{ p1 := (0, 0), p2 := (1, 0), p3 := (1, 1), p4 := (0, 1) }]],
       dt_polys := [] } [] (by decide)⟩

/-- Insertion sort and merge sort agree on any linearly ordered type: both
produce the sorted permutation, which is unique. -/
theorem insertionSort_eq_mergeSort {α : Type} [LinearOrder α] (l : List α) :
    List.insertionSort (· ≤ ·) l = l.mergeSort fun a b => decide (a ≤ b) := by
  refine List.eq_of_perm_of_sorted
    ((List.perm_insertionSort _ l).trans (List.mergeSort_perm l _).symm)
    (List.sorted_insertionSort _ l) ?_
  have htrans : ∀ a b c : α, decide (a ≤ b) = true → decide (b ≤ c) = true →
      decide (a ≤ c) = true := by
    intro a b c hab hbc
    simp only [decide_eq_true_eq] at hab hbc ⊢
    exact le_trans hab hbc
  have htotal : ∀ a b : α, (decide (a ≤ b) || decide (b ≤ a)) = true := by
    intro a b
    simpa using le_total a b
  have hs := @List.sorted_mergeSort α (fun a b => decide (a ≤ b)) htrans htotal l
  exact List.Pairwise.imp (fun hab => by simpa using hab) hs

/-- C7: `get_deskew` returns 0 whenever the result, its first element, its
polygon list, or the list of qualifying edge angles is empty (a polygon with
fewer than two vertices or an edge with `|dx| < 1` contributes no angle),
and otherwise returns the median — sort, take the middle element, average
the two middle elements for an even count — of the qualifying angles. -/
theorem claim_C7 {α : Type} [LinearOrderedField α] (atanDeg : ℚ → ℚ → α)
    (result : List OcrResult) :
    get_deskew atanDeg result =
      match result with
      | [] => 0
      | r :: _ =>
        if r.isEmptyRes then 0
        else if r.dt_polys.isEmpty then 0
        else if (collect_angles atanDeg r.dt_polys).isEmpty then 0
        else medianSpec (collect_angles atanDeg r.dt_polys) := by
  cases result with
  | nil => rfl
  | cons r rest =>
    unfold get_deskew medianSpec
    dsimp only
    by_cases he : r.isEmptyRes = true
    · rw [if_pos he, if_pos he]
    · rw [if_neg he, if_neg he]
      by_cases hd : r.dt_polys.isEmpty = true
      · rw [if_pos hd, if_pos hd]
      · rw [if_neg hd, if_neg hd]
        by_cases ha : (collect_angles atanDeg r.dt_polys).isEmpty = true
        · rw [if_pos ha, if_pos ha]
        · rw [if_neg ha, if_neg ha]
          rw [insertionSort_eq_mergeSort]

end PaddleOcr
